import Mathlib

/-!
Verification of the greedy study-plan scheduler of app.py
(function generate_study_plan together with its scoring step).

Shallow embedding conventions:
  - Python floats are modelled as exact rationals.
  - Calendar dates are modelled as integers (a day number); subtracting two
    dates yields the signed number of days between them, matching
    (d1 - d2).days on datetime.date values.
  - The mutable list st.session_state.tasks is modelled as a List Task that
    is threaded through the functions; mutation of a task dict in place
    becomes a positional update of the list.
  - Python round(x, 2) (round half to even on the value) is modelled as
    round2 below, rounding a rational to the nearest multiple of 1/100 with
    ties going to the even multiple.
-/

namespace StudyPlanner

/-- A task record as built by tasks_tab in app.py: keys id, title, subject,
estimated_hours, due_date, importance, difficulty, status. -/
structure Task where
  id : Nat
  title : String
  subject : String
  estimated_hours : ℚ
  due_date : Option ℤ
  importance : ℤ
  difficulty : ℤ
  status : String
deriving DecidableEq

/-- A schedule entry dict as appended to plan in generate_study_plan:
keys date, time_block, subject, task_title, planned_hours. -/
structure ScheduleEntry where
  date : ℤ
  time_block : String
  subject : String
  task_title : String
  planned_hours : ℚ
deriving DecidableEq

/-- Verification instrumentation: one allocation step of the inner loop of
generate_study_plan (lines 316-332 of app.py).  Records the values the code
computes at that point: the current date, the session counter, the index of
the task in the task store, its subject and title, the unrounded amount
assigned = min(day_hours_left, estimated_hours), and the value of the
estimated_hours field of the task just before the decrement.  The
dict actually stored by the code is eventToEntry of this record. -/
structure AllocEvent where
  date : ℤ
  block : Nat
  taskIdx : Nat
  subject : String
  task_title : String
  assigned : ℚ
  effBefore : ℚ
deriving DecidableEq

/-- The session state touched by generate_study_plan: the task store and the
stored schedule. -/
structure AppState where
  tasks : List Task
  schedule : List ScheduleEntry
deriving DecidableEq

/-- Reading an index that is out of range yields this placeholder, whose
estimated_hours of 0 makes the scheduler skip it; valid runs never read it. -/
def defaultTask : Task :=
  { id := 0, title := "", subject := "", estimated_hours := 0,
    due_date := none, importance := 0, difficulty := 0, status := "" }

/-- Read the task at position i of the store. -/
def getTask (tasks : List Task) (i : Nat) : Task :=
  tasks.getD i defaultTask

/-- Model of the in-place mutation t["estimated_hours"] = h of the task dict
at position i of the store. -/
def setEff : List Task → Nat → ℚ → List Task
  | [], _, _ => []
  | t :: ts, 0, h => { t with estimated_hours := h } :: ts
  | t :: ts, Nat.succ n, h => t :: setEff ts n h

/-- Lines 285-290 of app.py: days_left is 30 when the task has no due date;
otherwise d = (due_date - today).days is clamped below at 0 and then
days_left = d if d > 0 else 1. -/
def days_left (today : ℤ) (t : Task) : ℤ :=
  match t.due_date with
  | none => 30
  | some due =>
    let d := due - today
    let d2 := if d < 0 then 0 else d
    if d2 > 0 then d2 else 1

/-- Line 293-294 of app.py: urgency = 1.0 / days_left and
score = importance * 2 + difficulty + urgency * 5. -/
def score (today : ℤ) (t : Task) : ℚ :=
  (t.importance : ℚ) * 2 + (t.difficulty : ℚ) + (1 / (days_left today t : ℚ)) * 5

/-- days_left as the specification states it: max(1, due_date - today),
or 30 when no due date is set. -/
def specDaysLeft (today : ℤ) (t : Task) : ℤ :=
  match t.due_date with
  | none => 30
  | some due => max 1 (due - today)

/-- Insert an index into a list already sorted by strictly descending key,
placing it after all entries with a key at least as large. -/
def insertDesc (key : Nat → ℚ) (x : Nat) : List Nat → List Nat
  | [] => [x]
  | y :: ys => if key x < key y then y :: insertDesc key x ys else x :: y :: ys

/-- Stable sort by descending key: the model of
tasks_with_score.sort(key=lambda x: x[1], reverse=True) at line 298 of
app.py (CPython sort is stable, and reverse=True keeps ties in input
order, as this insertion sort does). -/
def sortDesc (key : Nat → ℚ) : List Nat → List Nat
  | [] => []
  | x :: xs => insertDesc key x (sortDesc key xs)

/-- Line 276 of app.py: the positions of the tasks whose status is
"Pending", in store order. -/
def pendingIdx (tasks : List Task) : List Nat :=
  (List.range tasks.length).filter (fun i => (getTask tasks i).status == "Pending")

/-- The fixed iteration order of the inner loop: pending tasks sorted once by
score, descending (lines 283-298 of app.py). -/
def sortedIdx (today : ℤ) (tasks : List Task) : List Nat :=
  sortDesc (fun i => score today (getTask tasks i)) (pendingIdx tasks)

/-- Floor of a rational, computed from the numerator and denominator. -/
def ratFloor (q : ℚ) : ℤ :=
  Int.fdiv q.num (q.den : ℤ)

/-- Round a rational to the nearest integer, ties to even: the rounding rule
of Python round on an exactly representable value. -/
def roundHalfEven (q : ℚ) : ℤ :=
  let n := ratFloor q
  let frac := q - (n : ℚ)
  if frac < 1 / 2 then n
  else if 1 / 2 < frac then n + 1
  else if n % 2 = 0 then n else n + 1

/-- Model of round(x, 2) at line 326 of app.py. -/
def round2 (q : ℚ) : ℚ :=
  (roundHalfEven (q * 100) : ℚ) / 100

/-- The dict built at lines 320-328 of app.py from one allocation step. -/
def eventToEntry (e : AllocEvent) : ScheduleEntry :=
  { date := e.date, time_block := "Session " ++ toString e.block,
    subject := e.subject, task_title := e.task_title,
    planned_hours := round2 e.assigned }

/-- The inner loop of generate_study_plan (lines 307-332 of app.py) for one
day: walk the sorted index list; skip a task whose estimated_hours is <= 0;
stop when day_hours_left is <= 0; otherwise assign
min(day_hours_left, estimated_hours) hours, record the allocation, decrement
the task effort and the day capacity and advance the session counter.
Returns the updated store, the allocations of the day in order, and the
capacity left at the end of the day. -/
def allocDay (curDate : ℤ) (tasks : List Task) (hoursLeft : ℚ) (blockIdx : Nat) :
    List Nat → List Task × List AllocEvent × ℚ
  | [] => (tasks, [], hoursLeft)
  | i :: rest =>
    let t := getTask tasks i
    if t.estimated_hours ≤ 0 then
      allocDay curDate tasks hoursLeft blockIdx rest
    else if hoursLeft ≤ 0 then
      (tasks, [], hoursLeft)
    else
      let assigned := min hoursLeft t.estimated_hours
      if assigned ≤ 0 then
        allocDay curDate tasks hoursLeft blockIdx rest
      else
        let ev : AllocEvent :=
          { date := curDate, block := blockIdx, taskIdx := i,
            subject := t.subject, task_title := t.title,
            assigned := assigned, effBefore := t.estimated_hours }
        let r := allocDay curDate (setEff tasks i (t.estimated_hours - assigned))
                   (hoursLeft - assigned) (blockIdx + 1) rest
        (r.1, ev :: r.2.1, r.2.2)

/-- The day loop of generate_study_plan (lines 303-334 of app.py): for each
of numDays days, reset the capacity to dailyHours and the session counter to
1, run the inner loop over the fixed sorted order, then advance the date. -/
def runDays (dailyHours : ℚ) (sorted : List Nat) :
    Nat → ℤ → List Task → List Task × List AllocEvent
  | 0, _, tasks => (tasks, [])
  | Nat.succ n, curDate, tasks =>
    let r := allocDay curDate tasks dailyHours 1 sorted
    let rest := runDays dailyHours sorted n (curDate + 1) r.1
    (rest.1, r.2.1 ++ rest.2)

/-- The whole scheduling pass of generate_study_plan on the task store,
returning the updated store and the allocation trace. -/
def generateEvents (today : ℤ) (dailyHours : ℚ) (numDays : Nat)
    (tasks : List Task) : List Task × List AllocEvent :=
  runDays dailyHours (sortedIdx today tasks) numDays today tasks

/-- generate_study_plan (lines 269-338 of app.py): if no task is pending,
store and return the empty plan; otherwise run the scheduling pass, store
the produced plan (replacing the previous one wholesale) and return it.
today stands for date.today(). -/
def generate_study_plan (today : ℤ) (dailyHours : ℚ) (numDays : Nat)
    (s : AppState) : List ScheduleEntry × AppState :=
  if pendingIdx s.tasks = [] then
    ([], { s with schedule := [] })
  else
    let r := generateEvents today dailyHours numDays s.tasks
    let plan := r.2.map eventToEntry
    (plan, { tasks := r.1, schedule := plan })

/-- Total hours of a list of allocations (unrounded). -/
def sumAssigned (es : List AllocEvent) : ℚ :=
  (es.map AllocEvent.assigned).sum

/-- Unrounded hours allocated to the task at store position i. -/
def allocTo (i : Nat) (es : List AllocEvent) : ℚ :=
  sumAssigned (es.filter (fun e => e.taskIdx == i))

/-- Unrounded hours allocated on date d. -/
def allocOnDate (d : ℤ) (es : List AllocEvent) : ℚ :=
  sumAssigned (es.filter (fun e => e.date == d))

/-- Sum of the recorded planned_hours fields of a list of entries. -/
def sumPlanned (ps : List ScheduleEntry) : ℚ :=
  (ps.map ScheduleEntry.planned_hours).sum

/-- Sum of the recorded planned_hours of the entries carrying a given task
title (entries reference their task by title). -/
def plannedToTitle (ti : String) (ps : List ScheduleEntry) : ℚ :=
  sumPlanned (ps.filter (fun e => e.task_title == ti))

/-- Sum of the recorded planned_hours of the entries dated on day d. -/
def plannedOnDate (d : ℤ) (ps : List ScheduleEntry) : ℚ :=
  sumPlanned (ps.filter (fun e => e.date == d))

/-! ### Basic facts about the task store -/

lemma getTask_out {tasks : List Task} {i : Nat} (h : tasks.length ≤ i) :
    getTask tasks i = defaultTask :=
  List.getD_eq_default _ _ h

lemma lt_length_of_eff_pos {tasks : List Task} {i : Nat}
    (h : 0 < (getTask tasks i).estimated_hours) : i < tasks.length := by
  by_contra hc
  push_neg at hc
  rw [getTask_out hc] at h
  simp [defaultTask] at h

lemma setEff_length (tasks : List Task) (i : Nat) (q : ℚ) :
    (setEff tasks i q).length = tasks.length := by
  induction tasks generalizing i with
  | nil => rfl
  | cons t ts ih =>
    cases i with
    | zero => rfl
    | succ n => simpa [setEff] using ih n

lemma getTask_setEff_ne (tasks : List Task) {i j : Nat} (q : ℚ) (hne : i ≠ j) :
    getTask (setEff tasks i q) j = getTask tasks j := by
  induction tasks generalizing i j with
  | nil => rfl
  | cons t ts ih =>
    cases i with
    | zero =>
      cases j with
      | zero => exact absurd rfl hne
      | succ m => simp [setEff, getTask]
    | succ n =>
      cases j with
      | zero => simp [setEff, getTask]
      | succ m =>
        simp only [setEff, getTask, List.getD_cons_succ]
        exact ih (fun hc => hne (by omega))

lemma getTask_setEff_self (tasks : List Task) {i : Nat} (q : ℚ)
    (h : i < tasks.length) :
    getTask (setEff tasks i q) i = { getTask tasks i with estimated_hours := q } := by
  induction tasks generalizing i with
  | nil => simp at h
  | cons t ts ih =>
    cases i with
    | zero => simp [setEff, getTask]
    | succ n =>
      simp only [setEff, getTask, List.getD_cons_succ]
      exact ih (by simpa using h)

lemma mem_of_getTask {tasks : List Task} {i : Nat} (h : i < tasks.length) :
    getTask tasks i ∈ tasks := by
  have : tasks.getD i defaultTask = tasks.get ⟨i, h⟩ := List.getD_eq_get _ _ h
  rw [getTask, this]
  exact List.get_mem _ _ _

/-! ### Sum helpers -/

lemma sumAssigned_nil : sumAssigned [] = 0 := rfl

lemma sumAssigned_cons (e : AllocEvent) (es : List AllocEvent) :
    sumAssigned (e :: es) = e.assigned + sumAssigned es := by
  simp [sumAssigned]

lemma sumAssigned_append (es1 es2 : List AllocEvent) :
    sumAssigned (es1 ++ es2) = sumAssigned es1 + sumAssigned es2 := by
  simp [sumAssigned]

lemma allocTo_nil (i : Nat) : allocTo i [] = 0 := rfl

lemma allocTo_cons (i : Nat) (e : AllocEvent) (es : List AllocEvent) :
    allocTo i (e :: es)
      = (if e.taskIdx = i then e.assigned else 0) + allocTo i es := by
  by_cases h : e.taskIdx = i <;>
    simp [allocTo, List.filter_cons, h, sumAssigned_cons]

lemma allocTo_append (i : Nat) (es1 es2 : List AllocEvent) :
    allocTo i (es1 ++ es2) = allocTo i es1 + allocTo i es2 := by
  simp [allocTo, List.filter_append, sumAssigned_append]

/-! ### Invariants of the inner (per-day) loop -/

lemma min_pos_of_not_le {h e : ℚ} (h1 : ¬e ≤ 0) (h2 : ¬h ≤ 0) :
    ¬min h e ≤ 0 :=
  not_le.mpr (lt_min (not_le.mp h2) (not_le.mp h1))

lemma allocDay_allocTo (d : ℤ) (l : List Nat) :
    ∀ (tasks : List Task) (h : ℚ) (b i : Nat),
      allocTo i (allocDay d tasks h b l).2.1
        = (getTask tasks i).estimated_hours
          - (getTask (allocDay d tasks h b l).1 i).estimated_hours := by
  induction l with
  | nil => intro tasks h b i; simp [allocDay, allocTo_nil]
  | cons j rest ih =>
    intro tasks h b i
    simp only [allocDay]
    split_ifs with h1 h2 h3
    · exact ih tasks h b i
    · simp [allocTo_nil]
    · exact absurd h3 (min_pos_of_not_le h1 h2)
    · rw [allocTo_cons]
      by_cases hij : j = i
      · subst hij
        have hjlen : j < tasks.length :=
          lt_length_of_eff_pos (not_le.mp h1)
        have hmid := getTask_setEff_self tasks
          ((getTask tasks j).estimated_hours - min h (getTask tasks j).estimated_hours) hjlen
        rw [if_pos rfl, ih, hmid]
        ring
      · rw [if_neg hij, ih, getTask_setEff_ne tasks _ hij]
        ring

lemma allocDay_skip (d : ℤ) (l : List Nat) :
    ∀ (tasks : List Task) (h : ℚ) (b i : Nat),
      (getTask tasks i).estimated_hours ≤ 0 →
      ((allocDay d tasks h b l).2.1.filter (fun e => e.taskIdx == i)) = []
        ∧ getTask (allocDay d tasks h b l).1 i = getTask tasks i := by
  induction l with
  | nil => intro tasks h b i _; simp [allocDay]
  | cons j rest ih =>
    intro tasks h b i hi
    simp only [allocDay]
    split_ifs with h1 h2 h3
    · exact ih tasks h b i hi
    · simp
    · exact absurd h3 (min_pos_of_not_le h1 h2)
    · have hij : j ≠ i := by
        intro hc
        subst hc
        exact h1 hi
      have hmid : getTask (setEff tasks j
          ((getTask tasks j).estimated_hours - min h (getTask tasks j).estimated_hours)) i
          = getTask tasks i := getTask_setEff_ne tasks _ hij
      have := ih (setEff tasks j
          ((getTask tasks j).estimated_hours - min h (getTask tasks j).estimated_hours))
          (h - min h (getTask tasks j).estimated_hours) (b + 1) i (by rw [hmid]; exact hi)
      refine ⟨?_, by rw [this.2, hmid]⟩
      simp only [List.filter_cons]
      rw [if_neg (by simpa using hij), this.1]

lemma allocDay_nonneg (d : ℤ) (l : List Nat) :
    ∀ (tasks : List Task) (h : ℚ) (b i : Nat),
      0 ≤ (getTask tasks i).estimated_hours →
      0 ≤ (getTask (allocDay d tasks h b l).1 i).estimated_hours := by
  induction l with
  | nil => intro tasks h b i hi; simpa [allocDay] using hi
  | cons j rest ih =>
    intro tasks h b i hi
    simp only [allocDay]
    split_ifs with h1 h2 h3
    · exact ih tasks h b i hi
    · exact hi
    · exact absurd h3 (min_pos_of_not_le h1 h2)
    · by_cases hij : j = i
      · subst hij
        have hjlen : j < tasks.length := lt_length_of_eff_pos (not_le.mp h1)
        refine ih _ _ _ _ ?_
        rw [getTask_setEff_self tasks _ hjlen]
        simp only
        have : min h (getTask tasks j).estimated_hours ≤ (getTask tasks j).estimated_hours :=
          min_le_right _ _
        linarith
      · refine ih _ _ _ _ ?_
        rw [getTask_setEff_ne tasks _ hij]
        exact hi

lemma allocDay_mono (d : ℤ) (l : List Nat) :
    ∀ (tasks : List Task) (h : ℚ) (b i : Nat),
      (getTask (allocDay d tasks h b l).1 i).estimated_hours
        ≤ (getTask tasks i).estimated_hours := by
  induction l with
  | nil => intro tasks h b i; simp [allocDay]
  | cons j rest ih =>
    intro tasks h b i
    simp only [allocDay]
    split_ifs with h1 h2 h3
    · exact ih tasks h b i
    · exact le_refl _
    · exact absurd h3 (min_pos_of_not_le h1 h2)
    · by_cases hij : j = i
      · subst hij
        have hjlen : j < tasks.length := lt_length_of_eff_pos (not_le.mp h1)
        refine le_trans (ih _ _ _ _) ?_
        rw [getTask_setEff_self tasks _ hjlen]
        simp only
        have : 0 < min h (getTask tasks j).estimated_hours :=
          not_le.mp (min_pos_of_not_le h1 h2)
        linarith
      · refine le_trans (ih _ _ _ _) ?_
        rw [getTask_setEff_ne tasks _ hij]

lemma allocDay_cap (d : ℤ) (l : List Nat) :
    ∀ (tasks : List Task) (h : ℚ) (b : Nat),
      sumAssigned (allocDay d tasks h b l).2.1 = h - (allocDay d tasks h b l).2.2
        ∧ (0 ≤ h → 0 ≤ (allocDay d tasks h b l).2.2) := by
  induction l with
  | nil => intro tasks h b; simp [allocDay, sumAssigned_nil]
  | cons j rest ih =>
    intro tasks h b
    simp only [allocDay]
    split_ifs with h1 h2 h3
    · exact ih tasks h b
    · simp [sumAssigned_nil]
    · exact absurd h3 (min_pos_of_not_le h1 h2)
    · rw [sumAssigned_cons]
      have hle : min h (getTask tasks j).estimated_hours ≤ h := min_le_left _ _
      have := ih (setEff tasks j
          ((getTask tasks j).estimated_hours - min h (getTask tasks j).estimated_hours))
          (h - min h (getTask tasks j).estimated_hours) (b + 1)
      constructor
      · rw [this.1]; ring
      · intro _
        exact this.2 (by linarith)

lemma allocDay_ev (d : ℤ) (l : List Nat) :
    ∀ (tasks : List Task) (h : ℚ) (b : Nat),
      ∀ ev ∈ (allocDay d tasks h b l).2.1,
        0 < ev.assigned ∧ ev.assigned ≤ ev.effBefore ∧ ev.date = d := by
  induction l with
  | nil => intro tasks h b ev hev; simp [allocDay] at hev
  | cons j rest ih =>
    intro tasks h b ev hev
    simp only [allocDay] at hev
    split_ifs at hev with h1 h2 h3
    · exact ih tasks h b ev hev
    · simp at hev
    · exact absurd h3 (min_pos_of_not_le h1 h2)
    · simp only [List.mem_cons] at hev
      rcases hev with hev | hev
      · subst hev
        exact ⟨not_le.mp h3, min_le_right _ _, rfl⟩
      · exact ih _ _ _ ev hev

lemma allocDay_length (d : ℤ) (l : List Nat) :
    ∀ (tasks : List Task) (h : ℚ) (b : Nat),
      (allocDay d tasks h b l).1.length = tasks.length := by
  induction l with
  | nil => intro tasks h b; simp [allocDay]
  | cons j rest ih =>
    intro tasks h b
    simp only [allocDay]
    split_ifs with h1 h2 h3
    · exact ih tasks h b
    · rfl
    · exact absurd h3 (min_pos_of_not_le h1 h2)
    · rw [ih, setEff_length]

/-! ### Invariants of the day loop -/

lemma runDays_allocTo (daily : ℚ) (sorted : List Nat) :
    ∀ (n : Nat) (start : ℤ) (tasks : List Task) (i : Nat),
      allocTo i (runDays daily sorted n start tasks).2
        = (getTask tasks i).estimated_hours
          - (getTask (runDays daily sorted n start tasks).1 i).estimated_hours := by
  intro n
  induction n with
  | zero => intro start tasks i; simp [runDays, allocTo_nil]
  | succ m ih =>
    intro start tasks i
    simp only [runDays]
    rw [allocTo_append, allocDay_allocTo, ih]
    ring

lemma runDays_skip (daily : ℚ) (sorted : List Nat) :
    ∀ (n : Nat) (start : ℤ) (tasks : List Task) (i : Nat),
      (getTask tasks i).estimated_hours ≤ 0 →
      ((runDays daily sorted n start tasks).2.filter (fun e => e.taskIdx == i)) = []
        ∧ getTask (runDays daily sorted n start tasks).1 i = getTask tasks i := by
  intro n
  induction n with
  | zero => intro start tasks i _; simp [runDays]
  | succ m ih =>
    intro start tasks i hi
    simp only [runDays]
    have hday := allocDay_skip start sorted tasks daily 1 i hi
    have hrest := ih (start + 1) (allocDay start tasks daily 1 sorted).1 i
      (by rw [hday.2]; exact hi)
    refine ⟨?_, by rw [hrest.2, hday.2]⟩
    rw [List.filter_append, hday.1, hrest.1]
    rfl

lemma runDays_nonneg (daily : ℚ) (sorted : List Nat) :
    ∀ (n : Nat) (start : ℤ) (tasks : List Task) (i : Nat),
      0 ≤ (getTask tasks i).estimated_hours →
      0 ≤ (getTask (runDays daily sorted n start tasks).1 i).estimated_hours := by
  intro n
  induction n with
  | zero => intro start tasks i hi; simpa [runDays] using hi
  | succ m ih =>
    intro start tasks i hi
    simp only [runDays]
    exact ih (start + 1) _ i (allocDay_nonneg start sorted tasks daily 1 i hi)

lemma runDays_mono (daily : ℚ) (sorted : List Nat) :
    ∀ (n : Nat) (start : ℤ) (tasks : List Task) (i : Nat),
      (getTask (runDays daily sorted n start tasks).1 i).estimated_hours
        ≤ (getTask tasks i).estimated_hours := by
  intro n
  induction n with
  | zero => intro start tasks i; simp [runDays]
  | succ m ih =>
    intro start tasks i
    simp only [runDays]
    exact le_trans (ih (start + 1) _ i) (allocDay_mono start sorted tasks daily 1 i)

lemma runDays_length (daily : ℚ) (sorted : List Nat) :
    ∀ (n : Nat) (start : ℤ) (tasks : List Task),
      (runDays daily sorted n start tasks).1.length = tasks.length := by
  intro n
  induction n with
  | zero => intro start tasks; simp [runDays]
  | succ m ih =>
    intro start tasks
    simp only [runDays]
    rw [ih, allocDay_length]

lemma runDays_ev (daily : ℚ) (sorted : List Nat) :
    ∀ (n : Nat) (start : ℤ) (tasks : List Task),
      ∀ ev ∈ (runDays daily sorted n start tasks).2,
        0 < ev.assigned ∧ ev.assigned ≤ ev.effBefore ∧ start ≤ ev.date := by
  intro n
  induction n with
  | zero => intro start tasks ev hev; simp [runDays] at hev
  | succ m ih =>
    intro start tasks ev hev
    simp only [runDays] at hev
    rw [List.mem_append] at hev
    rcases hev with hev | hev
    · obtain ⟨h1, h2, h3⟩ := allocDay_ev start sorted tasks daily 1 ev hev
      exact ⟨h1, h2, le_of_eq h3.symm⟩
    · obtain ⟨h1, h2, h3⟩ := ih (start + 1) _ ev hev
      exact ⟨h1, h2, by omega⟩

lemma runDays_cap_on_date (daily : ℚ) (sorted : List Nat) (hd : 0 ≤ daily) :
    ∀ (n : Nat) (start : ℤ) (tasks : List Task) (D : ℤ),
      sumAssigned ((runDays daily sorted n start tasks).2.filter
        (fun e => e.date == D)) ≤ daily := by
  intro n
  induction n with
  | zero => intro start tasks D; simpa [runDays, sumAssigned_nil] using hd
  | succ m ih =>
    intro start tasks D
    simp only [runDays]
    rw [List.filter_append, sumAssigned_append]
    by_cases hD : D = start
    · subst hD
      have h1 : (allocDay D tasks daily 1 sorted).2.1.filter (fun e => e.date == D)
          = (allocDay D tasks daily 1 sorted).2.1 := by
        refine List.filter_eq_self.mpr (fun a ha => ?_)
        have := (allocDay_ev D sorted tasks daily 1 a ha).2.2
        simpa using this
      have h2 : ((runDays daily sorted m (D + 1)
          (allocDay D tasks daily 1 sorted).1).2.filter (fun e => e.date == D)) = [] := by
        refine List.filter_eq_nil.mpr (fun a ha => ?_)
        have := (runDays_ev daily sorted m (D + 1) _ a ha).2.2
        simp only [beq_iff_eq]
        omega
      rw [h1, h2, sumAssigned_nil]
      have hcap := allocDay_cap D sorted tasks daily 1
      have h3 := hcap.2 hd
      rw [hcap.1]
      linarith
    · have h1 : (allocDay start tasks daily 1 sorted).2.1.filter
          (fun e => e.date == D) = [] := by
        refine List.filter_eq_nil.mpr (fun a ha => ?_)
        have := (allocDay_ev start sorted tasks daily 1 a ha).2.2
        simp only [beq_iff_eq]
        omega
      rw [h1, sumAssigned_nil, zero_add]
      exact ih (start + 1) _ D

/-! ### Exhausted tasks and zero capacity -/

lemma allocDay_exhausted (d : ℤ) (l : List Nat) :
    ∀ (tasks : List Task) (h : ℚ) (b : Nat),
      (∀ i ∈ l, (getTask tasks i).estimated_hours ≤ 0) →
      allocDay d tasks h b l = (tasks, [], h) := by
  induction l with
  | nil => intro tasks h b _; rfl
  | cons j rest ih =>
    intro tasks h b hall
    simp only [allocDay]
    rw [if_pos (hall j (List.mem_cons_self j rest))]
    exact ih tasks h b (fun i hi => hall i (List.mem_cons_of_mem j hi))

lemma runDays_exhausted (daily : ℚ) (sorted : List Nat) :
    ∀ (n : Nat) (start : ℤ) (tasks : List Task),
      (∀ i ∈ sorted, (getTask tasks i).estimated_hours ≤ 0) →
      runDays daily sorted n start tasks = (tasks, []) := by
  intro n
  induction n with
  | zero => intro start tasks _; rfl
  | succ m ih =>
    intro start tasks hall
    simp only [runDays]
    rw [allocDay_exhausted start sorted tasks daily 1 hall, ih (start + 1) tasks hall]
    rfl

lemma allocDay_no_capacity (d : ℤ) (l : List Nat) :
    ∀ (tasks : List Task) (h : ℚ) (b : Nat), h ≤ 0 →
      allocDay d tasks h b l = (tasks, [], h) := by
  induction l with
  | nil => intro tasks h b _; rfl
  | cons j rest ih =>
    intro tasks h b hh
    simp only [allocDay]
    by_cases h1 : (getTask tasks j).estimated_hours ≤ 0
    · rw [if_pos h1]
      exact ih tasks h b hh
    · rw [if_neg h1, if_pos hh]

lemma runDays_no_capacity (daily : ℚ) (sorted : List Nat) :
    ∀ (n : Nat) (start : ℤ) (tasks : List Task), daily ≤ 0 →
      runDays daily sorted n start tasks = (tasks, []) := by
  intro n
  induction n with
  | zero => intro start tasks _; rfl
  | succ m ih =>
    intro start tasks hh
    simp only [runDays]
    rw [allocDay_no_capacity start sorted tasks daily 1 hh, ih (start + 1) tasks hh]
    rfl

/-! ### Linking generate_study_plan to its scheduling pass -/

lemma sortedIdx_of_pending_nil {today : ℤ} {tasks : List Task}
    (h : pendingIdx tasks = []) : sortedIdx today tasks = [] := by
  rw [sortedIdx, h]
  rfl

lemma generate_tasks_link (today : ℤ) (d : ℚ) (n : Nat) (s : AppState) :
    (generate_study_plan today d n s).2.tasks = (generateEvents today d n s.tasks).1 := by
  by_cases hp : pendingIdx s.tasks = []
  · rw [generate_study_plan, if_pos hp, generateEvents, sortedIdx_of_pending_nil hp,
      runDays_exhausted d [] n today s.tasks (fun i hi => absurd hi (List.not_mem_nil i))]
  · rw [generate_study_plan, if_neg hp]

lemma generate_plan_nonempty (today : ℤ) (d : ℚ) (n : Nat) (s : AppState)
    (hp : pendingIdx s.tasks ≠ []) :
    (generate_study_plan today d n s).1
      = (generateEvents today d n s.tasks).2.map eventToEntry := by
  rw [generate_study_plan, if_neg hp]

/-! ### Claim C4 -/

/-- C4: if the set of pending tasks is empty, generate_study_plan returns the
empty sequence and replaces any previously stored schedule with the empty
sequence, leaving no stale schedule behind. -/
theorem C4_empty_pending_clears_schedule (today : ℤ) (d : ℚ) (n : Nat)
    (s : AppState) (hp : pendingIdx s.tasks = []) :
    (generate_study_plan today d n s).1 = []
      ∧ (generate_study_plan today d n s).2.schedule = [] := by
  rw [generate_study_plan, if_pos hp]
  exact ⟨rfl, rfl⟩

def c4Task : Task :=
  { id := 1, title := "T", subject := "S", estimated_hours := 2,
    due_date := none, importance := 3, difficulty := 2, status := "Completed" }

def c4Stale : ScheduleEntry :=
  { date := 0, time_block := "Session 1", subject := "S", task_title := "T",
    planned_hours := 1 }

/-- Witness for C4: a store holding only a completed task and a stale stored
schedule; the run returns the empty plan and clears the stored schedule. -/
theorem C4_empty_pending_clears_schedule_witness :
    pendingIdx [c4Task] = []
    ∧ ((generate_study_plan 0 4 5 ⟨[c4Task], [c4Stale]⟩).1 = []
        ∧ (generate_study_plan 0 4 5 ⟨[c4Task], [c4Stale]⟩).2.schedule = []) :=
  ⟨by decide,
   C4_empty_pending_clears_schedule 0 4 5 ⟨[c4Task], [c4Stale]⟩ (by decide)⟩

/-! ### Claim C5 -/

/-- C5: the score of a task equals importance * 2 + difficulty * 1 +
urgency * 5 with urgency = 1 / days_left, where days_left equals
max(1, due_date - today) when a due date is set (so an overdue task gets the
same days_left, namely 1, as a task due exactly one day from now) and 30
otherwise. -/
theorem C5_score_formula (today : ℤ) (t : Task) :
    score today t
        = (t.importance : ℚ) * 2 + (t.difficulty : ℚ) * 1
          + (1 / (specDaysLeft today t : ℚ)) * 5
    ∧ days_left today t = specDaysLeft today t
    ∧ (∀ due : ℤ, t.due_date = some due → due < today →
        days_left today t = 1
          ∧ days_left today { t with due_date := some (today + 1) } = 1) := by
  have hdl : days_left today t = specDaysLeft today t := by
    rw [days_left, specDaysLeft]
    cases t.due_date with
    | none => rfl
    | some due =>
      simp only
      split_ifs with h1 h2 <;> omega
  refine ⟨?_, hdl, ?_⟩
  · rw [score, hdl]
    ring
  · intro due hdue hlt
    constructor
    · rw [hdl, specDaysLeft, hdue]
      simp only
      omega
    · simp only [days_left]
      split_ifs with h1 h2 <;> omega

def c5Task : Task :=
  { id := 1, title := "T", subject := "S", estimated_hours := 2,
    due_date := some 5, importance := 4, difficulty := 2, status := "Pending" }

/-- Witness for C5: a task due at day 5 evaluated at today = 10 (overdue)
has days_left 1, like a task due at day 11, and its score evaluates to
4 * 2 + 2 * 1 + (1 / 1) * 5 = 15. -/
theorem C5_score_formula_witness :
    score 10 c5Task = 15
    ∧ (days_left 10 c5Task = 1
        ∧ days_left 10 { c5Task with due_date := some 11 } = 1) := by
  refine ⟨?_, (C5_score_formula 10 c5Task).2.2 5 rfl (by decide)⟩
  rw [(C5_score_formula 10 c5Task).1]
  norm_num [c5Task, specDaysLeft]

/-! ### Claim C1 (corrected) -/

def c1cxTask : Task :=
  { id := 1, title := "T", subject := "S", estimated_hours := 3 / 500,
    due_date := none, importance := 3, difficulty := 3, status := "Pending" }

/-- Counterexample to C1 as stated: a pending task with estimated effort
0.006 and capacity 2 produces one entry whose recorded planned_hours is
round(0.006, 2) = 0.01, so the sum of the hours recorded in the schedule
entries of this task is 0.01, which exceeds the pre-run estimated effort
0.006. -/
theorem C1_counterexample :
    plannedToTitle "T" (generate_study_plan 0 2 1 ⟨[c1cxTask], []⟩).1 = 1 / 100
    ∧ c1cxTask.estimated_hours = 3 / 500
    ∧ ¬(plannedToTitle "T" (generate_study_plan 0 2 1 ⟨[c1cxTask], []⟩).1
          ≤ c1cxTask.estimated_hours) := by
  have h1 : plannedToTitle "T" (generate_study_plan 0 2 1 ⟨[c1cxTask], []⟩).1
      = 1 / 100 := by
    norm_num [generate_study_plan, generateEvents, sortedIdx, pendingIdx, sortDesc,
      insertDesc, runDays, allocDay, getTask, setEff, eventToEntry, round2,
      roundHalfEven, ratFloor, plannedToTitle, sumPlanned, score, days_left,
      c1cxTask, min_def, Int.fdiv, List.range_succ, List.filter, sumAssigned]
  refine ⟨h1, by norm_num [c1cxTask], ?_⟩
  rw [h1]
  norm_num [c1cxTask]

/-- C1 amended: for every state with a non-empty pending set and every task
position with non-negative pre-run effort, the sum of the unrounded hours
allocated to that task across the run (the amounts actually subtracted from
its estimated_hours) never exceeds the pre-run estimated effort; the
returned entries are the allocations with planned_hours rounded to two
decimals, which is where the original claim fails. -/
theorem C1_unrounded_allocation_bound (today : ℤ) (d : ℚ) (n : Nat)
    (s : AppState) (i : Nat) (hp : pendingIdx s.tasks ≠ [])
    (h0 : 0 ≤ (getTask s.tasks i).estimated_hours) :
    allocTo i (generateEvents today d n s.tasks).2
        ≤ (getTask s.tasks i).estimated_hours
    ∧ (generate_study_plan today d n s).1
        = (generateEvents today d n s.tasks).2.map eventToEntry := by
  constructor
  · simp only [generateEvents]
    rw [runDays_allocTo]
    have := runDays_nonneg d (sortedIdx today s.tasks) n today s.tasks i h0
    linarith
  · exact generate_plan_nonempty today d n s hp

def c1wTask : Task :=
  { id := 1, title := "A", subject := "S", estimated_hours := 5,
    due_date := none, importance := 3, difficulty := 3, status := "Pending" }

/-- Witness for the amended C1 at a concrete run. -/
theorem C1_unrounded_allocation_bound_witness :
    pendingIdx [c1wTask] ≠ []
    ∧ (allocTo 0 (generateEvents 0 2 3 [c1wTask]).2
          ≤ (getTask [c1wTask] 0).estimated_hours
        ∧ (generate_study_plan 0 2 3 ⟨[c1wTask], []⟩).1
            = (generateEvents 0 2 3 [c1wTask]).2.map eventToEntry) :=
  ⟨by decide,
   C1_unrounded_allocation_bound 0 2 3 ⟨[c1wTask], []⟩ 0 (by decide) (by decide)⟩

/-! ### Claim C2 (corrected) -/

def c2cxTask : Task :=
  { id := 1, title := "T", subject := "S", estimated_hours := 1,
    due_date := none, importance := 3, difficulty := 3, status := "Pending" }

/-- Counterexample to C2 as stated: with daily capacity 0.006 and a pending
task of effort 1, the single entry of day 0 records
planned_hours = round(0.006, 2) = 0.01, so the recorded hours of that day
sum to 0.01, which exceeds the configured capacity 0.006. -/
theorem C2_counterexample :
    plannedOnDate 0 (generate_study_plan 0 (3 / 500) 1 ⟨[c2cxTask], []⟩).1 = 1 / 100
    ∧ ¬(plannedOnDate 0 (generate_study_plan 0 (3 / 500) 1 ⟨[c2cxTask], []⟩).1
          ≤ 3 / 500) := by
  have h1 : plannedOnDate 0 (generate_study_plan 0 (3 / 500) 1 ⟨[c2cxTask], []⟩).1
      = 1 / 100 := by
    norm_num [generate_study_plan, generateEvents, sortedIdx, pendingIdx, sortDesc,
      insertDesc, runDays, allocDay, getTask, setEff, eventToEntry, round2,
      roundHalfEven, ratFloor, plannedOnDate, sumPlanned, score, days_left,
      c2cxTask, min_def, Int.fdiv, List.range_succ, List.filter, sumAssigned]
  refine ⟨h1, ?_⟩
  rw [h1]
  norm_num

/-- C2 amended: for a non-negative configured capacity, the sum of the
unrounded hours allocated on any single day never exceeds the capacity; the
recorded planned_hours are these amounts rounded to two decimals, which is
where the original claim fails. -/
theorem C2_unrounded_daily_capacity (today : ℤ) (d : ℚ) (n : Nat)
    (s : AppState) (D : ℤ) (hd : 0 ≤ d) :
    allocOnDate D (generateEvents today d n s.tasks).2 ≤ d := by
  simp only [generateEvents, allocOnDate]
  exact runDays_cap_on_date d (sortedIdx today s.tasks) hd n today s.tasks D

def c2wTask : Task :=
  { id := 1, title := "A", subject := "S", estimated_hours := 5,
    due_date := none, importance := 3, difficulty := 3, status := "Pending" }

/-- Witness for the amended C2 at a concrete run. -/
theorem C2_unrounded_daily_capacity_witness :
    (0 : ℚ) ≤ 2 ∧ allocOnDate 0 (generateEvents 0 2 3 [c2wTask]).2 ≤ 2 :=
  ⟨by norm_num,
   C2_unrounded_daily_capacity 0 2 3 ⟨[c2wTask], []⟩ 0 (by norm_num)⟩

/-! ### Claim C7 -/

/-- C7: running the scheduling pass twice in succession, the second run
operating on the effort values already reduced by the first, never allocates
more cumulative hours to any task than its original (non-negative) estimated
effort, and each run shrinks the remaining effort of every task monotonically.
The last conjunct ties the pass to generate_study_plan: the task store it
leaves behind is the one the first pass produces. -/
theorem C7_rerun_cumulative_bound (t1 : ℤ) (d1 : ℚ) (n1 : Nat) (t2 : ℤ)
    (d2 : ℚ) (n2 : Nat) (s : AppState) (i : Nat)
    (h0 : 0 ≤ (getTask s.tasks i).estimated_hours) :
    allocTo i (generateEvents t1 d1 n1 s.tasks).2
      + allocTo i (generateEvents t2 d2 n2 (generateEvents t1 d1 n1 s.tasks).1).2
      ≤ (getTask s.tasks i).estimated_hours
    ∧ (getTask (generateEvents t2 d2 n2 (generateEvents t1 d1 n1 s.tasks).1).1 i).estimated_hours
        ≤ (getTask (generateEvents t1 d1 n1 s.tasks).1 i).estimated_hours
    ∧ (getTask (generateEvents t1 d1 n1 s.tasks).1 i).estimated_hours
        ≤ (getTask s.tasks i).estimated_hours
    ∧ (generate_study_plan t1 d1 n1 s).2.tasks = (generateEvents t1 d1 n1 s.tasks).1 := by
  simp only [generateEvents]
  have e1 := runDays_allocTo d1 (sortedIdx t1 s.tasks) n1 t1 s.tasks i
  have hn1 := runDays_nonneg d1 (sortedIdx t1 s.tasks) n1 t1 s.tasks i h0
  have m1 := runDays_mono d1 (sortedIdx t1 s.tasks) n1 t1 s.tasks i
  have e2 := runDays_allocTo d2
    (sortedIdx t2 (runDays d1 (sortedIdx t1 s.tasks) n1 t1 s.tasks).1) n2 t2
    (runDays d1 (sortedIdx t1 s.tasks) n1 t1 s.tasks).1 i
  have hn2 := runDays_nonneg d2
    (sortedIdx t2 (runDays d1 (sortedIdx t1 s.tasks) n1 t1 s.tasks).1) n2 t2
    (runDays d1 (sortedIdx t1 s.tasks) n1 t1 s.tasks).1 i hn1
  have m2 := runDays_mono d2
    (sortedIdx t2 (runDays d1 (sortedIdx t1 s.tasks) n1 t1 s.tasks).1) n2 t2
    (runDays d1 (sortedIdx t1 s.tasks) n1 t1 s.tasks).1 i
  refine ⟨by rw [e1, e2]; linarith, m2, m1, ?_⟩
  have := generate_tasks_link t1 d1 n1 s
  simpa only [generateEvents] using this

def c7wTask : Task :=
  { id := 1, title := "A", subject := "S", estimated_hours := 5,
    due_date := none, importance := 3, difficulty := 3, status := "Pending" }

/-- Witness for C7: two consecutive three-day runs at capacity 2 on a task
of effort 5. -/
theorem C7_rerun_cumulative_bound_witness :
    (0 : ℚ) ≤ (getTask [c7wTask] 0).estimated_hours
    ∧ (allocTo 0 (generateEvents 0 2 3 [c7wTask]).2
        + allocTo 0 (generateEvents 3 2 3 (generateEvents 0 2 3 [c7wTask]).1).2
        ≤ (getTask [c7wTask] 0).estimated_hours
      ∧ (getTask (generateEvents 3 2 3 (generateEvents 0 2 3 [c7wTask]).1).1 0).estimated_hours
          ≤ (getTask (generateEvents 0 2 3 [c7wTask]).1 0).estimated_hours
      ∧ (getTask (generateEvents 0 2 3 [c7wTask]).1 0).estimated_hours
          ≤ (getTask [c7wTask] 0).estimated_hours
      ∧ (generate_study_plan 0 2 3 ⟨[c7wTask], []⟩).2.tasks
          = (generateEvents 0 2 3 [c7wTask]).1) :=
  ⟨by decide,
   C7_rerun_cumulative_bound 0 2 3 3 2 3 ⟨[c7wTask], []⟩ 0 (by decide)⟩

/-! ### Claim C8 (corrected) -/

def c8cxTask : Task :=
  { id := 1, title := "T", subject := "S", estimated_hours := 1 / 250,
    due_date := none, importance := 3, difficulty := 3, status := "Pending" }

/-- Counterexample to C8 as stated: a pending task of estimated effort
0.004 yields one entry whose recorded planned_hours is
round(0.004, 2) = 0.0, which is not a positive number. -/
theorem C8_counterexample :
    (generate_study_plan 0 2 1 ⟨[c8cxTask], []⟩).1.map ScheduleEntry.planned_hours
        = [0]
    ∧ ¬(0 < (0 : ℚ)) := by
  constructor
  · norm_num [generate_study_plan, generateEvents, sortedIdx, pendingIdx, sortDesc,
      insertDesc, runDays, allocDay, getTask, setEff, eventToEntry, round2,
      roundHalfEven, ratFloor, score, days_left, c8cxTask, min_def, Int.fdiv,
      List.range_succ, List.filter]
  · norm_num

/-- C8 amended: every allocation records a positive unrounded amount that
does not exceed the estimated_hours of the task at the moment of the
allocation (the effBefore field of the trace), and the planned_hours stored
in the corresponding schedule entry is that amount rounded to two decimals,
which can round a positive amount to zero or above the remaining effort. -/
theorem C8_entry_hours_are_rounded_allocations (today : ℤ) (d : ℚ) (n : Nat)
    (s : AppState) :
    ∀ ev ∈ (generateEvents today d n s.tasks).2,
      0 < ev.assigned ∧ ev.assigned ≤ ev.effBefore
        ∧ (eventToEntry ev).planned_hours = round2 ev.assigned := by
  intro ev hev
  simp only [generateEvents] at hev
  obtain ⟨h1, h2, _⟩ := runDays_ev d (sortedIdx today s.tasks) n today s.tasks ev hev
  exact ⟨h1, h2, rfl⟩

def c8wTask : Task :=
  { id := 1, title := "A", subject := "S", estimated_hours := 5,
    due_date := none, importance := 3, difficulty := 3, status := "Pending" }

/-- Witness for the amended C8: the first allocation of a concrete run. -/
theorem C8_entry_hours_are_rounded_allocations_witness :
    (⟨0, 1, 0, "S", "A", 2, 5⟩ : AllocEvent) ∈ (generateEvents 0 2 3 [c8wTask]).2
    ∧ (0 < (⟨0, 1, 0, "S", "A", 2, 5⟩ : AllocEvent).assigned
        ∧ (⟨0, 1, 0, "S", "A", 2, 5⟩ : AllocEvent).assigned
            ≤ (⟨0, 1, 0, "S", "A", 2, 5⟩ : AllocEvent).effBefore
        ∧ (eventToEntry ⟨0, 1, 0, "S", "A", 2, 5⟩).planned_hours
            = round2 (⟨0, 1, 0, "S", "A", 2, 5⟩ : AllocEvent).assigned) := by
  have hmem : (⟨0, 1, 0, "S", "A", 2, 5⟩ : AllocEvent)
      ∈ (generateEvents 0 2 3 [c8wTask]).2 := by
    norm_num [generateEvents, sortedIdx, pendingIdx, sortDesc, insertDesc,
      runDays, allocDay, getTask, setEff, score, days_left, c8wTask, min_def,
      List.range_succ, List.filter]
  exact ⟨hmem,
    C8_entry_hours_are_rounded_allocations 0 2 3 ⟨[c8wTask], []⟩ _ hmem⟩

/-! ### Claim C9 -/

/-- C9: degenerate numeric inputs raise nothing (all functions here are
total): a task whose estimated effort is zero or negative receives no
allocation on any day and its stored record is left untouched, and a daily
capacity of zero makes the whole run return the empty plan while the day
loop still walks the full horizon. -/
theorem C9_degenerate_inputs (today : ℤ) (d : ℚ) (n : Nat) (s : AppState)
    (i : Nat) :
    ((getTask s.tasks i).estimated_hours ≤ 0 →
      ((generateEvents today d n s.tasks).2.filter (fun e => e.taskIdx == i)) = []
        ∧ getTask (generateEvents today d n s.tasks).1 i = getTask s.tasks i)
    ∧ (generate_study_plan today 0 n s).1 = [] := by
  constructor
  · intro hi
    simp only [generateEvents]
    exact runDays_skip d (sortedIdx today s.tasks) n today s.tasks i hi
  · by_cases hp : pendingIdx s.tasks = []
    · rw [generate_study_plan, if_pos hp]
    · rw [generate_plan_nonempty today 0 n s hp, generateEvents,
        runDays_no_capacity 0 (sortedIdx today s.tasks) n today s.tasks le_rfl]
      rfl

def c9wTask : Task :=
  { id := 1, title := "A", subject := "S", estimated_hours := -2,
    due_date := none, importance := 3, difficulty := 3, status := "Pending" }

/-- Witness for C9: a pending task of negative effort is skipped by a
three-day run at capacity 4, and a capacity-zero run returns no entries. -/
theorem C9_degenerate_inputs_witness :
    (getTask [c9wTask] 0).estimated_hours ≤ 0
    ∧ (((generateEvents 0 4 3 [c9wTask]).2.filter (fun e => e.taskIdx == 0)) = []
        ∧ getTask (generateEvents 0 4 3 [c9wTask]).1 0 = getTask [c9wTask] 0)
    ∧ (generate_study_plan 0 0 3 ⟨[c9wTask], []⟩).1 = [] :=
  ⟨by decide,
   (C9_degenerate_inputs 0 4 3 ⟨[c9wTask], []⟩ 0).1 (by decide),
   (C9_degenerate_inputs 0 0 3 ⟨[c9wTask], []⟩ 0).2⟩

/-! ### Claim C10 -/

/-- C10: if every task in the store has non-negative estimated effort before
the run, every task still has non-negative estimated effort after the run:
each allocation is min(remaining capacity, remaining effort), so the
in-place decrement never drives the effort below zero. -/
theorem C10_effort_stays_nonneg (today : ℤ) (d : ℚ) (n : Nat) (s : AppState)
    (h0 : ∀ t ∈ s.tasks, 0 ≤ t.estimated_hours) :
    ∀ t2 ∈ (generate_study_plan today d n s).2.tasks, 0 ≤ t2.estimated_hours := by
  intro t2 ht2
  rw [generate_tasks_link] at ht2
  obtain ⟨⟨i, hi⟩, hget⟩ := List.mem_iff_get.mp ht2
  have hlen : (generateEvents today d n s.tasks).1.length = s.tasks.length := by
    simp only [generateEvents]
    exact runDays_length d (sortedIdx today s.tasks) n today s.tasks
  have hi2 : i < s.tasks.length := by
    rw [← hlen]
    exact hi
  have hgetD : getTask (generateEvents today d n s.tasks).1 i = t2 := by
    rw [getTask, List.getD_eq_get _ _ hi]
    exact hget
  have hstart : 0 ≤ (getTask s.tasks i).estimated_hours :=
    h0 _ (mem_of_getTask hi2)
  have := runDays_nonneg d (sortedIdx today s.tasks) n today s.tasks i hstart
  rw [← hgetD]
  simpa only [generateEvents] using this

def c10wTask : Task :=
  { id := 1, title := "A", subject := "S", estimated_hours := 5,
    due_date := none, importance := 3, difficulty := 3, status := "Pending" }

/-- Witness for C10 at a concrete run. -/
theorem C10_effort_stays_nonneg_witness :
    (∀ t ∈ [c10wTask], (0 : ℚ) ≤ t.estimated_hours)
    ∧ (∀ t2 ∈ (generate_study_plan 0 2 3 ⟨[c10wTask], []⟩).2.tasks,
        0 ≤ t2.estimated_hours) :=
  ⟨by decide,
   C10_effort_stays_nonneg 0 2 3 ⟨[c10wTask], []⟩ (by decide)⟩

/-! ### Claim C3 -/

/-- C3: for a store holding exactly one pending task of estimated effort
5.0, capacity 2.0 and horizon 3 days, the run outputs exactly three entries
of 2.0, 2.0 and 1.0 hours on three consecutive days starting today, and the
remaining estimated effort of the task after the run is 0.0. -/
theorem C3_five_hours_over_three_days (today : ℤ) (t : Task)
    (sched : List ScheduleEntry) (hst : t.status = "Pending")
    (he : t.estimated_hours = 5) :
    (generate_study_plan today 2 3 ⟨[t], sched⟩).1
        = [⟨today, "Session 1", t.subject, t.title, 2⟩,
           ⟨today + 1, "Session 1", t.subject, t.title, 2⟩,
           ⟨today + 2, "Session 1", t.subject, t.title, 1⟩]
    ∧ (generate_study_plan today 2 3 ⟨[t], sched⟩).2.tasks.map
        Task.estimated_hours = [0] := by
  have hs1 : ("Session " ++ toString (1 : Nat)) = "Session 1" := rfl
  have hr2 : round2 2 = 2 := by
    norm_num [round2, roundHalfEven, ratFloor, Int.fdiv]
  have hr1 : round2 1 = 1 := by
    norm_num [round2, roundHalfEven, ratFloor, Int.fdiv]
  constructor
  all_goals
    norm_num [generate_study_plan, generateEvents, sortedIdx, pendingIdx,
      sortDesc, insertDesc, runDays, allocDay, getTask, setEff, eventToEntry,
      List.range_succ, List.filter, min_def, hst, he, hs1, hr2, hr1]
  omega

def c3wTask : Task :=
  { id := 1, title := "A", subject := "S", estimated_hours := 5,
    due_date := none, importance := 3, difficulty := 3, status := "Pending" }

/-- Witness for C3 at a concrete task. -/
theorem C3_five_hours_over_three_days_witness :
    (generate_study_plan 0 2 3 ⟨[c3wTask], []⟩).1
        = [⟨0, "Session 1", "S", "A", 2⟩,
           ⟨0 + 1, "Session 1", "S", "A", 2⟩,
           ⟨0 + 2, "Session 1", "S", "A", 1⟩]
    ∧ (generate_study_plan 0 2 3 ⟨[c3wTask], []⟩).2.tasks.map
        Task.estimated_hours = [0] :=
  C3_five_hours_over_three_days 0 c3wTask [] rfl rfl

/-! ### Claim C6 -/

/-- C6: for exactly two pending tasks ta, tb whose scores satisfy
score ta > score tb and whose combined positive efforts are below the
capacity of one day, the run produces exactly two entries, both dated today
(day 1), the entry of the higher-scored task ta first, and no entry on any
later day — whichever of the two store orders [ta, tb] or [tb, ta] the tasks
are held in; the trace conjuncts pin the tasks down by store position. -/
theorem C6_two_small_tasks_same_day (today : ℤ) (d : ℚ) (m : Nat)
    (ta tb : Task) (sched : List ScheduleEntry)
    (hsa : ta.status = "Pending") (hsb : tb.status = "Pending")
    (hea : 0 < ta.estimated_hours) (heb : 0 < tb.estimated_hours)
    (hsum : ta.estimated_hours + tb.estimated_hours < d)
    (hsc : score today tb < score today ta) :
    ((generate_study_plan today d (m + 1) ⟨[ta, tb], sched⟩).1
        = [⟨today, "Session 1", ta.subject, ta.title, round2 ta.estimated_hours⟩,
           ⟨today, "Session 2", tb.subject, tb.title, round2 tb.estimated_hours⟩]
      ∧ (generateEvents today d (m + 1) [ta, tb]).2.map AllocEvent.taskIdx
          = [0, 1])
    ∧ ((generate_study_plan today d (m + 1) ⟨[tb, ta], sched⟩).1
        = [⟨today, "Session 1", ta.subject, ta.title, round2 ta.estimated_hours⟩,
           ⟨today, "Session 2", tb.subject, tb.title, round2 tb.estimated_hours⟩]
      ∧ (generateEvents today d (m + 1) [tb, ta]).2.map AllocEvent.taskIdx
          = [1, 0]) := by
  have hea2 : (ta.estimated_hours ≤ 0) = False := eq_false (not_le.mpr hea)
  have heb2 : (tb.estimated_hours ≤ 0) = False := eq_false (not_le.mpr heb)
  have hd2 : (d ≤ 0) = False := eq_false (not_le.mpr (by linarith))
  have hrem2 : (d - ta.estimated_hours ≤ 0) = False :=
    eq_false (not_le.mpr (by linarith))
  have hminA : min d ta.estimated_hours = ta.estimated_hours :=
    min_eq_right (by linarith)
  have hminB : min (d - ta.estimated_hours) tb.estimated_hours
      = tb.estimated_hours := min_eq_right (by linarith)
  have hpend : pendingIdx [ta, tb] = [0, 1] := by
    simp [pendingIdx, List.range_succ, getTask, hsa, hsb]
  have hsort : sortedIdx today [ta, tb] = [0, 1] := by
    rw [sortedIdx, hpend]
    have h01 : ¬(score today (getTask [ta, tb] 0) < score today (getTask [ta, tb] 1)) := by
      simp only [getTask, List.getD_cons_zero, List.getD_cons_succ]
      exact not_lt.mpr (le_of_lt hsc)
    simp [sortDesc, insertDesc, h01]
  have hday : allocDay today [ta, tb] d 1 [0, 1]
      = ([{ta with estimated_hours := 0}, {tb with estimated_hours := 0}],
         [⟨today, 1, 0, ta.subject, ta.title,
            ta.estimated_hours, ta.estimated_hours⟩,
          ⟨today, 2, 1, tb.subject, tb.title,
            tb.estimated_hours, tb.estimated_hours⟩],
         d - ta.estimated_hours - tb.estimated_hours) := by
    simp [allocDay, getTask, setEff, hea2, hd2, heb2, hrem2, hminA, hminB]
  have hex : runDays d [0, 1] m (today + 1)
      [{ta with estimated_hours := 0}, {tb with estimated_hours := 0}]
      = ([{ta with estimated_hours := 0}, {tb with estimated_hours := 0}], []) := by
    apply runDays_exhausted
    intro i hi
    fin_cases hi <;> simp [getTask]
  have hpne : pendingIdx (AppState.mk [ta, tb] sched).tasks ≠ [] := by
    rw [hpend]
    simp
  refine ⟨⟨?_, ?_⟩, ?_⟩
  · rw [generate_plan_nonempty today d (m + 1) ⟨[ta, tb], sched⟩ hpne]
    show ((runDays d (sortedIdx today [ta, tb]) (m + 1) today [ta, tb]).2.map
      eventToEntry) = _
    rw [hsort]
    simp only [runDays]
    rw [hday]
    simp only
    rw [hex]
    simp [eventToEntry]
    exact ⟨rfl, rfl⟩
  · rw [generateEvents, hsort]
    simp only [runDays]
    rw [hday]
    simp only
    rw [hex]
    simp
  · have hpend2 : pendingIdx [tb, ta] = [0, 1] := by
      simp [pendingIdx, List.range_succ, getTask, hsa, hsb]
    have hsort2 : sortedIdx today [tb, ta] = [1, 0] := by
      rw [sortedIdx, hpend2]
      have h01 : score today (getTask [tb, ta] 0) < score today (getTask [tb, ta] 1) := by
        simp only [getTask, List.getD_cons_zero, List.getD_cons_succ]
        exact hsc
      simp [sortDesc, insertDesc, h01]
    have hday2 : allocDay today [tb, ta] d 1 [1, 0]
        = ([{tb with estimated_hours := 0}, {ta with estimated_hours := 0}],
           [⟨today, 1, 1, ta.subject, ta.title,
              ta.estimated_hours, ta.estimated_hours⟩,
            ⟨today, 2, 0, tb.subject, tb.title,
              tb.estimated_hours, tb.estimated_hours⟩],
           d - ta.estimated_hours - tb.estimated_hours) := by
      simp [allocDay, getTask, setEff, hea2, hd2, heb2, hrem2, hminA, hminB]
    have hex2 : runDays d [1, 0] m (today + 1)
        [{tb with estimated_hours := 0}, {ta with estimated_hours := 0}]
        = ([{tb with estimated_hours := 0}, {ta with estimated_hours := 0}], []) := by
      apply runDays_exhausted
      intro i hi
      fin_cases hi <;> simp [getTask]
    have hpne2 : pendingIdx (AppState.mk [tb, ta] sched).tasks ≠ [] := by
      rw [hpend2]
      simp
    constructor
    · rw [generate_plan_nonempty today d (m + 1) ⟨[tb, ta], sched⟩ hpne2]
      show ((runDays d (sortedIdx today [tb, ta]) (m + 1) today [tb, ta]).2.map
        eventToEntry) = _
      rw [hsort2]
      simp only [runDays]
      rw [hday2]
      simp only
      rw [hex2]
      simp [eventToEntry]
      exact ⟨rfl, rfl⟩
    · rw [generateEvents, hsort2]
      simp only [runDays]
      rw [hday2]
      simp only
      rw [hex2]
      simp

def c6wTaskA : Task :=
  { id := 1, title := "hi", subject := "S", estimated_hours := 1,
    due_date := none, importance := 5, difficulty := 3, status := "Pending" }

def c6wTaskB : Task :=
  { id := 2, title := "lo", subject := "S", estimated_hours := 2 / 3,
    due_date := none, importance := 1, difficulty := 1, status := "Pending" }

/-- Witness for C6: two small pending tasks against capacity 4 and a
three-day horizon, in both store orders. -/
theorem C6_two_small_tasks_same_day_witness :
    score 0 c6wTaskB < score 0 c6wTaskA
    ∧ (((generate_study_plan 0 4 3 ⟨[c6wTaskA, c6wTaskB], []⟩).1
        = [⟨0, "Session 1", c6wTaskA.subject, c6wTaskA.title,
              round2 c6wTaskA.estimated_hours⟩,
           ⟨0, "Session 2", c6wTaskB.subject, c6wTaskB.title,
              round2 c6wTaskB.estimated_hours⟩]
        ∧ (generateEvents 0 4 3 [c6wTaskA, c6wTaskB]).2.map AllocEvent.taskIdx
            = [0, 1])
      ∧ ((generate_study_plan 0 4 3 ⟨[c6wTaskB, c6wTaskA], []⟩).1
        = [⟨0, "Session 1", c6wTaskA.subject, c6wTaskA.title,
              round2 c6wTaskA.estimated_hours⟩,
           ⟨0, "Session 2", c6wTaskB.subject, c6wTaskB.title,
              round2 c6wTaskB.estimated_hours⟩]
        ∧ (generateEvents 0 4 3 [c6wTaskB, c6wTaskA]).2.map AllocEvent.taskIdx
            = [1, 0])) := by
  have hsc : score 0 c6wTaskB < score 0 c6wTaskA := by
    norm_num [score, days_left, c6wTaskA, c6wTaskB]
  exact ⟨hsc,
    C6_two_small_tasks_same_day 0 4 2 c6wTaskA c6wTaskB [] rfl rfl
      (by norm_num [c6wTaskA]) (by norm_num [c6wTaskB])
      (by norm_num [c6wTaskA, c6wTaskB]) hsc⟩

end StudyPlanner
